/-
Verification of the PLauncher core (instance registry, process supervisor,
download manager) against its specification.  The definitions below are a
shallow embedding of `src/main.py`: pure data manipulation is translated into
Lean functions, the mutable globals (`process`, the status label, the log
viewer buffer, `instance_manager`) become explicit state records, and
OS or library effects (filesystem, signals, HTTP) are made explicit as
parameters and emitted action lists.
-/
import Mathlib

namespace PLauncher

/-! ## Instance registry (`InstanceManager` in `main.py`) -/

/-- One registry entry, `{"name": ..., "path": ...}` in `instances.json`. -/
structure Instance where
  name : String
  path : String
deriving DecidableEq, Repr

/-- The observable states of the backing store `instances.json`.  `valid l`
models a readable file whose JSON content parses to the array `l` (Python
`json` round-trips an array of string-valued objects exactly, so we keep the
parsed value rather than raw bytes).  `absent` models a missing file,
`unreadable` a file whose `open`/`read` raises an `OSError`, and `malformed`
a readable file on which `json.load` raises. -/
inductive DiskFile where
  | absent
  | unreadable
  | malformed
  | valid (data : List Instance)
deriving DecidableEq, Repr

/-- `InstanceManager.load_instances`: if the file exists it tries
`json.load`; any exception is caught (a warning is printed) and control
falls through to `return []`.  The function is total, mirroring that the
Python version never lets an exception escape to the caller. -/
def load_instances (d : DiskFile) : List Instance :=
  match d with
  | DiskFile.valid data => data
  | _ => []

/-- In-memory manager state plus the backing store.  `instances` is the
`self.instances` list; `disk` is the current state of `instances.json`. -/
structure ManagerState where
  instances : List Instance
  disk : DiskFile
deriving DecidableEq, Repr

/-- `InstanceManager.save_instances`: writes the whole in-memory list.  A
persistence fault (modelled as the `open(..., "w")` call failing, e.g. a
read-only filesystem, so the store is untouched) is caught inside the
method — the except branch only prints — so the caller never sees an
exception; `writeFaults` selects whether the write faults. -/
def save_instances (writeFaults : Bool) (s : ManagerState) : ManagerState :=
  if writeFaults then s
  else { s with disk := DiskFile.valid s.instances }

/-- `InstanceManager.add_instance`: appends to the in-memory list, then
persists the full list. -/
def add_instance (writeFaults : Bool) (s : ManagerState) (name path : String) :
    ManagerState :=
  save_instances writeFaults
    { s with instances := s.instances ++ [{ name := name, path := path }] }

/-- `InstanceManager.remove_instance`: guarded by `0 <= index < len`, then
`del self.instances[index]` and persist; otherwise nothing happens.  The
index is an `Int` so that negative indices are representable. -/
def remove_instance (writeFaults : Bool) (s : ManagerState) (index : Int) :
    ManagerState :=
  if 0 ≤ index ∧ index < (s.instances.length : Int) then
    save_instances writeFaults { s with instances := s.instances.eraseIdx index.toNat }
  else s

/-- `InstanceManager.__init__`: the in-memory list is initialised from the
backing store. -/
def initManager (d : DiskFile) : ManagerState :=
  { instances := load_instances d, disk := d }

/-- A registry mutation, as performed by the UI callbacks. -/
inductive RegistryOp where
  | add (name path : String)
  | removeAt (index : Int)
deriving DecidableEq, Repr

/-- Apply one registry operation with fault-free persistence. -/
def applyOp (s : ManagerState) : RegistryOp → ManagerState
  | RegistryOp.add n p => add_instance false s n p
  | RegistryOp.removeAt i => remove_instance false s i

/-- Apply a sequence of registry operations in order. -/
def applyOps (s : ManagerState) (ops : List RegistryOp) : ManagerState :=
  ops.foldl applyOp s

/-! ## Download manager (`GameDownloader` in `main.py`) -/

/-- The Qt signals `GameDownloader` emits: `progress(int)`,
`finished(name, file_path)` and `error(str)`. -/
inductive DlEvent where
  | progress (pct : Nat)
  | finished (displayName filePath : String)
  | error (msg : String)
deriving DecidableEq, Repr

/-- One step of `r.iter_content(chunk_size=8192)`: either a chunk of `n`
bytes arrives (`n = 0` models an empty keep-alive chunk, which the code
skips via `if chunk:`), or the iteration raises — a broken connection or a
failing `f.write` at that point; either exception propagates to the same
`except` handler, with `msg` the text of the exception. -/
inductive ChunkItem where
  | bytes (n : Nat)
  | fault (msg : String)
deriving DecidableEq, Repr

/-- Abstraction of the HTTP exchange `requests.get(url, stream=True)`.
`ok = false` models a request that raises before any body byte is read
(connection fault at request time, or `raise_for_status` on a non-2xx
response), with `statusMsg` the exception text.  `contentLength` is the
parsed `content-length` header, `none` when absent. -/
structure HttpResponse where
  ok : Bool
  statusMsg : String
  contentLength : Option Nat
  chunks : List ChunkItem
deriving DecidableEq, Repr

/-- Outcome of one run of the downloader: the emitted signal sequence and
the destination file.  `fileBytes = none` means the file was never created
(the request failed before `open(file_path, "wb")`); `some n` means the
destination file exists and holds `n` bytes. -/
structure DlResult where
  events : List DlEvent
  fileBytes : Option Nat
deriving DecidableEq, Repr

/-- The body of the `for chunk in r.iter_content(...)` loop.  Returns the
emitted progress events, the final `downloaded` counter (= bytes written to
the file) and the exception text when the iteration raised.  `int(x)` on the
nonnegative quotient `downloaded * 100 / total_size` is floor division. -/
def downloadLoop (total : Nat) : List ChunkItem → Nat → List DlEvent × Nat × Option String
  | [], d => ([], d, none)
  | ChunkItem.fault msg :: _, d => ([], d, some msg)
  | ChunkItem.bytes n :: rest, d =>
    if 0 < n then
      let evs : List DlEvent :=
        if 0 < total then [DlEvent.progress ((d + n) * 100 / total)] else []
      let res := downloadLoop total rest (d + n)
      (evs ++ res.1, res.2.1, res.2.2)
    else
      downloadLoop total rest d

/-- `GameDownloader.run`.  `total_size = int(r.headers.get('content-length', 0))`
is `contentLength.getD 0`.  On success the `finished` signal carries
`f"Skakavi Krompir {version_tag}"` and the file path; any exception reaches
the single `except` which emits `error(str(e))` once.  No branch removes the
destination file. -/
def GameDownloader.run (versionTag filePath : String) (r : HttpResponse) : DlResult :=
  if r.ok then
    match (downloadLoop (r.contentLength.getD 0) r.chunks 0).2.2 with
    | some msg =>
      { events := (downloadLoop (r.contentLength.getD 0) r.chunks 0).1 ++ [DlEvent.error msg],
        fileBytes := some (downloadLoop (r.contentLength.getD 0) r.chunks 0).2.1 }
    | none =>
      { events := (downloadLoop (r.contentLength.getD 0) r.chunks 0).1 ++
          [DlEvent.finished ("Skakavi Krompir " ++ versionTag) filePath],
        fileBytes := some (downloadLoop (r.contentLength.getD 0) r.chunks 0).2.1 }
  else
    { events := [DlEvent.error r.statusMsg], fileBytes := none }

/-- Text of the first chunk-level fault, if any. -/
def firstFaultMsg : List ChunkItem → Option String
  | [] => none
  | ChunkItem.fault m :: _ => some m
  | ChunkItem.bytes _ :: rest => firstFaultMsg rest

/-- Whether the body iteration faults at some point. -/
def hasFault (chunks : List ChunkItem) : Bool :=
  (firstFaultMsg chunks).isSome

/-- Total number of payload bytes delivered before the first fault (all of
them when no fault occurs). -/
def sumDelivered : List ChunkItem → Nat
  | [] => 0
  | ChunkItem.fault _ :: _ => 0
  | ChunkItem.bytes n :: rest => n + sumDelivered rest

/-- The running `bytes_received` totals observed at each chunk that delivers
at least one byte, up to the first fault.  This is the spec-side notion of
the `bytes_received` sequence. -/
def cumBytes : Nat → List ChunkItem → List Nat
  | _, [] => []
  | _, ChunkItem.fault _ :: _ => []
  | d, ChunkItem.bytes n :: rest =>
    if 0 < n then (d + n) :: cumBytes (d + n) rest else cumBytes d rest

/-- The percentages carried by the progress events of a signal sequence,
in emission order. -/
def progressValues : List DlEvent → List Nat
  | [] => []
  | DlEvent.progress n :: rest => n :: progressValues rest
  | DlEvent.finished _ _ :: rest => progressValues rest
  | DlEvent.error _ :: rest => progressValues rest

/-- The messages carried by the error events of a signal sequence. -/
def errorMsgs : List DlEvent → List String
  | [] => []
  | DlEvent.error m :: rest => m :: errorMsgs rest
  | DlEvent.progress _ :: rest => errorMsgs rest
  | DlEvent.finished _ _ :: rest => errorMsgs rest

/-- How many error events a signal sequence holds. -/
def countErrors (evs : List DlEvent) : Nat :=
  (errorMsgs evs).length

/-- How many finished events a signal sequence holds. -/
def countFinished : List DlEvent → Nat
  | [] => 0
  | DlEvent.finished _ _ :: rest => countFinished rest + 1
  | DlEvent.progress _ :: rest => countFinished rest
  | DlEvent.error _ :: rest => countFinished rest

/-- The underlying error description of a faulting exchange: the request
or status exception text when the request itself failed, otherwise the text
of the first mid-stream fault. -/
def underlyingMsg (r : HttpResponse) : String :=
  if r.ok then (firstFaultMsg r.chunks).getD "" else r.statusMsg

/-! ## Process supervisor (`launch_instance`, `kill_instance`, the signal
handlers, and the module-level globals `process` / `status` / `log_viewer`
in `main.py`) -/

/-- `QProcess.ProcessState`. -/
inductive ProcessState where
  | NotRunning
  | Starting
  | Running
deriving DecidableEq, Repr

/-- `QProcess.ProcessError` (the codes `errorOccurred` can deliver). -/
inductive ProcessError where
  | FailedToStart
  | Crashed
  | Timedout
  | WriteError
  | ReadError
  | UnknownError
deriving DecidableEq, Repr

/-- The text Python produces for `f"{error}"` on a `QProcess.ProcessError`
value (the enum member repr). -/
def ProcessError.pyText : ProcessError → String
  | ProcessError.FailedToStart => "ProcessError.FailedToStart"
  | ProcessError.Crashed => "ProcessError.Crashed"
  | ProcessError.Timedout => "ProcessError.Timedout"
  | ProcessError.WriteError => "ProcessError.WriteError"
  | ProcessError.ReadError => "ProcessError.ReadError"
  | ProcessError.UnknownError => "ProcessError.UnknownError"

/-- The supervisor's view of one `QProcess` object: its lifecycle state, the
OS pid (`processId()`), and the configured working directory. -/
structure ProcHandle where
  state : ProcessState
  pid : Nat
  workingDirectory : String
deriving DecidableEq, Repr

/-- The module-level mutable state the supervisor touches: the global
`process` (None until the first launch, and reset to None by kill), the
status label text, and the log viewer buffer as the list of appended chunks.
`log_viewer` is created at startup (before any button is wired), so the
`if log_viewer:` guards are taken as true. -/
structure LauncherState where
  process : Option ProcHandle
  status : String
  log : List String
deriving DecidableEq, Repr

/-- OS-level effects the supervisor can perform, in order of execution. -/
inductive OsAction where
  | makedirs (dir : String)
  | startProcess (program : String) (args : List String) (workdir : String)
  | killpg (pgid : Nat)
  | killLeader (pid : Nat)
  | waitForFinished (ms : Nat)
deriving DecidableEq, Repr

/-- `os.path.dirname` restricted to slash-separated paths: everything before
the final slash. -/
def dirname (path : String) : String :=
  String.intercalate "/" (path.splitOn "/").dropLast

/-- The line `launch_instance` appends to the log viewer before checking the
process state. -/
def bannerLine (inst : Instance) : String :=
  "--- Launching " ++ inst.name ++ " ---\n"

/-- `launch_instance`, from the point where an instance is selected.
`fsExists` models `os.path.exists`.  The function returns the new global
state together with the OS actions performed.  Faithful details: the status
text and the log banner are written before the state check; a missing
`process` global is replaced by a fresh `QProcess` (state `NotRunning`);
only when that handle is in `NotRunning` does the code set the working
directory, create it if absent, and call `process.start("setsid",
[instance_path])` (moving the handle to `Starting`); otherwise the status is
overwritten with "Already running" and nothing else happens. -/
def launch_instance (fsExists : String → Bool) (s : LauncherState) (inst : Instance) :
    LauncherState × List OsAction :=
  let workingDir := dirname inst.path
  let s1 : LauncherState :=
    { s with status := "Launching " ++ inst.name ++ "...",
             log := s.log ++ [bannerLine inst] }
  let p : ProcHandle :=
    match s1.process with
    | none => { state := ProcessState.NotRunning, pid := 0, workingDirectory := "" }
    | some q => q
  if p.state = ProcessState.NotRunning then
    let p2 : ProcHandle :=
      { p with workingDirectory := workingDir, state := ProcessState.Starting }
    let mk : List OsAction :=
      if fsExists workingDir then [] else [OsAction.makedirs workingDir]
    ({ s1 with process := some p2 },
      mk ++ [OsAction.startProcess "setsid" [inst.path] workingDir])
  else
    ({ s1 with process := some p, status := "Already running" }, [])

/-- `kill_instance`.  `getpgid` models `os.getpgid` (`none` when it raises
`ProcessLookupError`); `killpgFaults` selects whether `os.killpg` itself
raises (`ProcessLookupError` or `PermissionError`).  Either exception is
caught and answered by the fallback `process.kill()` on the leader alone.
After the signalling, the code waits at most 1000 ms (`waitForFinished`),
then clears the global handle and reports "Killed" regardless of whether the
exit was confirmed.  With no handle in `Running`, it only reports
"Not running". -/
def kill_instance (getpgid : Nat → Option Nat) (killpgFaults : Bool)
    (s : LauncherState) : LauncherState × List OsAction :=
  match s.process with
  | some p =>
    if p.state = ProcessState.Running then
      let killActs : List OsAction :=
        match getpgid p.pid with
        | some pg =>
          if killpgFaults then [OsAction.killpg pg, OsAction.killLeader p.pid]
          else [OsAction.killpg pg]
        | none => [OsAction.killLeader p.pid]
      ({ s with process := none, status := "Killed" },
        killActs ++ [OsAction.waitForFinished 1000])
    else ({ s with status := "Not running" }, [])
  | none => ({ s with status := "Not running" }, [])

/-- `handle_error`, the slot connected to `errorOccurred`: one fixed message
for `FailedToStart`, a generic formatted message otherwise.  It touches only
the status label — in particular it never clears the `process` global. -/
def handle_error (s : LauncherState) (e : ProcessError) : LauncherState :=
  if e = ProcessError.FailedToStart then
    { s with status := "Error: Binary not found or failed to start" }
  else
    { s with status := "Process Error: " ++ e.pyText }

/-- `QProcess.ExitStatus`. -/
inductive ExitStatus where
  | NormalExit
  | CrashExit
deriving DecidableEq, Repr

/-- `handle_finished`, the slot connected to the `finished` signal:
"Crashed" on a crash exit, "Finished" on exit code 0, and the formatted
exit-code message otherwise.  It touches only the status label — it never
clears the `process` global. -/
def handle_finished (s : LauncherState) (exitCode : Int)
    (exitStatus : ExitStatus) : LauncherState :=
  match exitStatus with
  | ExitStatus.CrashExit => { s with status := "Crashed" }
  | ExitStatus.NormalExit =>
    if exitCode = 0 then { s with status := "Finished" }
    else { s with status := "Finished (Exit Code: " ++ toString exitCode ++ ")" }

/-- The two ways the instance executable itself can fail to run. -/
inductive StartFailureCause where
  | executableNotFound
  | permissionDenied
deriving DecidableEq, Repr

/-- The exit code of `setsid instance_path` when execing the instance
binary fails: util-linux setsid follows the shell convention and exits with
127 when the program is not found and 126 when it exists but cannot be
executed (permission denied).  setsid itself starts fine in both cases, so
QProcess observes a normal start followed by a normal exit with this
code — `errorOccurred(FailedToStart)` never fires for these causes. -/
def setsidExitCode : StartFailureCause → Int
  | StartFailureCause.executableNotFound => 127
  | StartFailureCause.permissionDenied => 126

/-- A Launch of an instance whose executable is missing or not executable,
under the setsid indirection of `process.start("setsid", [instance_path])`:
QProcess starts `setsid` successfully, so `started` fires (status shows
Running) and the handle reaches `Running`; `setsid` fails to exec the
instance binary and exits normally with the shell-convention code; the
handle returns to `NotRunning` and `finished` fires, handled by
`handle_finished`.  The global `process` is never cleared on this path. -/
def launch_exec_failure (fsExists : String → Bool) (s : LauncherState)
    (inst : Instance) (cause : StartFailureCause) : LauncherState :=
  let s1 := (launch_instance fsExists s inst).1
  let startedHandle : Option ProcHandle :=
    Option.map (fun p => { p with state := ProcessState.Running }) s1.process
  let s2 : LauncherState :=
    { s1 with process := startedHandle, status := "Running: " ++ inst.name }
  let exitedHandle : Option ProcHandle :=
    Option.map (fun p => { p with state := ProcessState.NotRunning }) s2.process
  let s3 : LauncherState := { s2 with process := exitedHandle }
  handle_finished s3 (setsidExitCode cause) ExitStatus.NormalExit

/-! ## Concrete fixtures for witnesses and counterexamples -/

/-- A sample instance. -/
def inst0 : Instance :=
  { name := "Game", path := "/opt/game/bin/game" }

/-- The launcher state at startup: no process, empty status, empty log. -/
def initialLauncherState : LauncherState :=
  { process := none, status := "", log := [] }

/-- A launcher state whose handle is in the `Running` state. -/
def runningState : LauncherState :=
  { process := some { state := ProcessState.Running, pid := 42,
                      workingDirectory := "/opt/game/bin" },
    status := "Running: Game",
    log := ["--- Launching Game ---\n"] }

/-- A 1000-byte download with content length set, delivered in four
250-byte chunks. -/
def resp1000 : HttpResponse :=
  { ok := true, statusMsg := "", contentLength := some 1000,
    chunks := [ChunkItem.bytes 250, ChunkItem.bytes 250,
               ChunkItem.bytes 250, ChunkItem.bytes 250] }

/-- A download that breaks mid-transfer after 250 delivered bytes. -/
def respBroken : HttpResponse :=
  { ok := true, statusMsg := "", contentLength := some 1000,
    chunks := [ChunkItem.bytes 250, ChunkItem.fault "Connection broken"] }

/-- A download whose response carries no content-length header. -/
def respNoLength : HttpResponse :=
  { ok := true, statusMsg := "", contentLength := none,
    chunks := [ChunkItem.bytes 300, ChunkItem.bytes 300] }

/-- A request answered with a 404. -/
def resp404 : HttpResponse :=
  { ok := false, statusMsg := "404 Client Error: Not Found",
    contentLength := none, chunks := [] }

/-- A small sample registry state that is in sync with its store. -/
def syncedState : ManagerState :=
  { instances := [{ name := "A", path := "/a" }, { name := "B", path := "/b" }],
    disk := DiskFile.valid [{ name := "A", path := "/a" }, { name := "B", path := "/b" }] }

/-! ## Registry lemmas and claims -/

/-- Fault-free persistence followed by a load gives back the in-memory
list. -/
theorem load_after_save (s : ManagerState) :
    load_instances (save_instances false s).disk = s.instances := by
  simp [save_instances, load_instances]

/-- One registry operation preserves the load-save round-trip invariant. -/
theorem applyOp_roundtrip (s : ManagerState) (op : RegistryOp)
    (h : load_instances s.disk = s.instances) :
    load_instances (applyOp s op).disk = (applyOp s op).instances := by
  cases op with
  | add n p => simp [applyOp, add_instance, save_instances, load_instances]
  | removeAt i =>
    by_cases hb : 0 ≤ i ∧ i < (s.instances.length : Int)
    · simp [applyOp, remove_instance, hb, save_instances, load_instances]
    · simp [applyOp, remove_instance, hb, h]

/-- C6: whether the backing store is absent, unreadable, or holds malformed
JSON, `load_instances` returns the empty sequence — and, being a total Lean
function into `List Instance`, it raises nothing into the caller. -/
theorem claim_C6 :
    load_instances DiskFile.absent = [] ∧
    load_instances DiskFile.unreadable = [] ∧
    load_instances DiskFile.malformed = [] :=
  ⟨rfl, rfl, rfl⟩

/-- C7: starting from any backing store, after every sequence of Add and
RemoveAt operations (each with its write-through Save), a Load of the
persisted file reproduces exactly the in-memory sequence, in order. -/
theorem claim_C7 (d : DiskFile) (ops : List RegistryOp) :
    load_instances (applyOps (initManager d) ops).disk =
      (applyOps (initManager d) ops).instances := by
  have general : ∀ (l : List RegistryOp) (s : ManagerState),
      load_instances s.disk = s.instances →
      load_instances (applyOps s l).disk = (applyOps s l).instances := by
    intro l
    induction l with
    | nil => intro s h; simpa [applyOps] using h
    | cons op rest ih =>
      intro s h
      have h2 := applyOp_roundtrip s op h
      simpa [applyOps] using ih (applyOp s op) h2
  exact general ops (initManager d) rfl

/-- C9: RemoveAt with an out-of-bounds index (negative included) changes
neither the in-memory sequence nor the persisted file; with an in-bounds
index it removes exactly the addressed entry and persists the shortened
sequence. -/
theorem claim_C9 (s : ManagerState) (i : Int) :
    (¬ (0 ≤ i ∧ i < (s.instances.length : Int)) →
      remove_instance false s i = s) ∧
    ((0 ≤ i ∧ i < (s.instances.length : Int)) →
      (remove_instance false s i).instances =
        s.instances.take i.toNat ++ s.instances.drop (i.toNat + 1) ∧
      (remove_instance false s i).disk =
        DiskFile.valid (s.instances.take i.toNat ++ s.instances.drop (i.toNat + 1))) := by
  constructor
  · intro h
    simp [remove_instance, h]
  · intro h
    simp [remove_instance, h, save_instances, List.eraseIdx_eq_take_drop_succ]

/-- Witness for C9 at a concrete registry: index -1 is a no-op, index 0
removes the first entry and persists. -/
theorem claim_C9_witness :
    remove_instance false syncedState (-1) = syncedState ∧
    (remove_instance false syncedState 0).instances =
      syncedState.instances.take 0 ++ syncedState.instances.drop 1 ∧
    (remove_instance false syncedState 0).disk =
      DiskFile.valid (syncedState.instances.take 0 ++ syncedState.instances.drop 1) := by
  have h1 := (claim_C9 syncedState (-1)).1 (by decide)
  have h2 := (claim_C9 syncedState 0).2 (by decide)
  exact ⟨h1, h2.1, h2.2⟩

/-- C10: when persistence faults, Add and in-bounds RemoveAt still complete
(both are total functions, mirroring the swallowed exception), the in-memory
sequence is updated and not rolled back, the store is untouched, and a
previously synchronised store ends up diverging from memory. -/
theorem claim_C10 (s : ManagerState) (n p : String) (i : Int) :
    (add_instance true s n p).instances =
      s.instances ++ [{ name := n, path := p }] ∧
    (add_instance true s n p).disk = s.disk ∧
    ((0 ≤ i ∧ i < (s.instances.length : Int)) →
      (remove_instance true s i).instances = s.instances.eraseIdx i.toNat ∧
      (remove_instance true s i).disk = s.disk) ∧
    (load_instances s.disk = s.instances →
      load_instances (add_instance true s n p).disk ≠
        (add_instance true s n p).instances) := by
  refine ⟨?_, ?_, ?_, ?_⟩
  · simp [add_instance, save_instances]
  · simp [add_instance, save_instances]
  · intro h
    simp [remove_instance, h, save_instances]
  · intro h
    have hd : (add_instance true s n p).disk = s.disk := by
      simp [add_instance, save_instances]
    have hi : (add_instance true s n p).instances =
        s.instances ++ [{ name := n, path := p }] := by
      simp [add_instance, save_instances]
    rw [hd, hi, h]
    intro hcontra
    have hlen := congrArg List.length hcontra
    simp at hlen

/-- Witness for C10 at a concrete registry: a faulting Add updates memory,
leaves the store alone, and the two now disagree. -/
theorem claim_C10_witness :
    (add_instance true syncedState "C" "/c").instances =
      syncedState.instances ++ [{ name := "C", path := "/c" }] ∧
    (add_instance true syncedState "C" "/c").disk = syncedState.disk ∧
    (remove_instance true syncedState 0).disk = syncedState.disk ∧
    load_instances (add_instance true syncedState "C" "/c").disk ≠
      (add_instance true syncedState "C" "/c").instances := by
  have h := claim_C10 syncedState "C" "/c" 0
  exact ⟨h.1, h.2.1, (h.2.2.1 (by decide)).2, h.2.2.2 (by decide)⟩

/-! ## Download manager lemmas -/

/-- The loop raises exactly when the chunk stream holds a fault, with the
first fault text. -/
theorem downloadLoop_err (total : Nat) (chunks : List ChunkItem) :
    ∀ d : Nat, (downloadLoop total chunks d).2.2 = firstFaultMsg chunks := by
  induction chunks with
  | nil =>
    intro d
    simp [downloadLoop, firstFaultMsg]
  | cons c rest ih =>
    intro d
    cases c with
    | fault m => simp [downloadLoop, firstFaultMsg]
    | bytes n =>
      by_cases hn : 0 < n
      · simp [downloadLoop, firstFaultMsg, hn, ih]
      · simp [downloadLoop, firstFaultMsg, hn, ih]

/-- The final `downloaded` counter is the starting value plus every byte
delivered before the first fault. -/
theorem downloadLoop_bytes (total : Nat) (chunks : List ChunkItem) :
    ∀ d : Nat, (downloadLoop total chunks d).2.1 = d + sumDelivered chunks := by
  induction chunks with
  | nil =>
    intro d
    simp [downloadLoop, sumDelivered]
  | cons c rest ih =>
    intro d
    cases c with
    | fault m => simp [downloadLoop, sumDelivered]
    | bytes n =>
      by_cases hn : 0 < n
      · simp [downloadLoop, sumDelivered, hn, ih]
        omega
      · have h0 : n = 0 := by omega
        simp [downloadLoop, sumDelivered, hn, ih, h0]

/-- With a positive total size, the loop emits exactly one progress event
per delivering chunk, carrying `bytes_received * 100 / total`. -/
theorem downloadLoop_events_pos (total : Nat) (htotal : 0 < total)
    (chunks : List ChunkItem) :
    ∀ d : Nat, (downloadLoop total chunks d).1 =
      (cumBytes d chunks).map (fun b => DlEvent.progress (b * 100 / total)) := by
  induction chunks with
  | nil =>
    intro d
    simp [downloadLoop, cumBytes]
  | cons c rest ih =>
    intro d
    cases c with
    | fault m => simp [downloadLoop, cumBytes]
    | bytes n =>
      by_cases hn : 0 < n
      · simp [downloadLoop, cumBytes, hn, htotal, ih]
      · simp [downloadLoop, cumBytes, hn, ih]

/-- With total size zero (header absent or zero) the loop emits nothing. -/
theorem downloadLoop_events_zero (chunks : List ChunkItem) :
    ∀ d : Nat, (downloadLoop 0 chunks d).1 = [] := by
  induction chunks with
  | nil =>
    intro d
    simp [downloadLoop]
  | cons c rest ih =>
    intro d
    cases c with
    | fault m => simp [downloadLoop]
    | bytes n =>
      by_cases hn : 0 < n
      · simp [downloadLoop, hn, ih]
      · simp [downloadLoop, hn, ih]

/-- Error messages distribute over event-list concatenation. -/
theorem errorMsgs_append (a b : List DlEvent) :
    errorMsgs (a ++ b) = errorMsgs a ++ errorMsgs b := by
  induction a with
  | nil => simp [errorMsgs]
  | cons e rest ih => cases e <;> simp [errorMsgs, ih]

/-- Finished counts distribute over event-list concatenation. -/
theorem countFinished_append (a b : List DlEvent) :
    countFinished (a ++ b) = countFinished a + countFinished b := by
  induction a with
  | nil => simp [countFinished]
  | cons e rest ih =>
    cases e with
    | progress n => simp [countFinished, ih]
    | finished x y =>
      simp only [List.cons_append, countFinished, List.append_eq, ih]
      omega
    | error m => simp [countFinished, ih]

/-- Progress values distribute over event-list concatenation. -/
theorem progressValues_append (a b : List DlEvent) :
    progressValues (a ++ b) = progressValues a ++ progressValues b := by
  induction a with
  | nil => simp [progressValues]
  | cons e rest ih => cases e <;> simp [progressValues, ih]

/-- A list of pure progress events carries exactly its list of values. -/
theorem progressValues_map_progress (g : Nat → Nat) (l : List Nat) :
    progressValues (l.map (fun b => DlEvent.progress (g b))) = l.map g := by
  induction l with
  | nil => rfl
  | cons a rest ih => simp [progressValues, ih]

/-- A list of pure progress events holds no error message. -/
theorem errorMsgs_map_progress (g : Nat → Nat) (l : List Nat) :
    errorMsgs (l.map (fun b => DlEvent.progress (g b))) = [] := by
  induction l with
  | nil => rfl
  | cons a rest ih => simp [errorMsgs, ih]

/-- A list of pure progress events holds no finished event. -/
theorem countFinished_map_progress (g : Nat → Nat) (l : List Nat) :
    countFinished (l.map (fun b => DlEvent.progress (g b))) = 0 := by
  induction l with
  | nil => rfl
  | cons a rest ih => simp [countFinished, ih]

/-- The loop output carries neither errors nor finished events, whatever
the total size. -/
theorem downloadLoop_no_terminal (total : Nat) (chunks : List ChunkItem) (d : Nat) :
    errorMsgs (downloadLoop total chunks d).1 = [] ∧
    countFinished (downloadLoop total chunks d).1 = 0 := by
  by_cases ht : 0 < total
  · rw [downloadLoop_events_pos total ht chunks d]
    exact ⟨errorMsgs_map_progress _ _, countFinished_map_progress _ _⟩
  · have h0 : total = 0 := by omega
    subst h0
    rw [downloadLoop_events_zero chunks d]
    exact ⟨rfl, rfl⟩

/-- The `bytes_received` totals form a non-decreasing sequence bounded below
by the starting counter. -/
theorem cumBytes_le (chunks : List ChunkItem) :
    ∀ d : Nat, List.Chain' (fun a b : Nat => a ≤ b) (cumBytes d chunks) ∧
      ∀ x ∈ cumBytes d chunks, d ≤ x := by
  induction chunks with
  | nil =>
    intro d
    simp [cumBytes]
  | cons c rest ih =>
    intro d
    cases c with
    | fault m => simp [cumBytes]
    | bytes n =>
      by_cases hn : 0 < n
      · have h := ih (d + n)
        constructor
        · simp only [cumBytes, hn, if_pos]
          refine List.chain'_cons'.mpr ⟨?_, h.1⟩
          intro y hy
          exact h.2 y (List.mem_of_mem_head? hy)
        · intro x hx
          simp only [cumBytes, hn, if_pos, List.mem_cons] at hx
          rcases hx with hx | hx
          · omega
          · exact Nat.le_trans (Nat.le_add_right d n) (h.2 x hx)
      · simpa [cumBytes, hn] using ih d

/-- With a fault-free stream that delivers at least one byte, the full byte
count appears among the `bytes_received` totals (it is the last one). -/
theorem sumDelivered_mem_cumBytes (chunks : List ChunkItem) :
    hasFault chunks = false → 0 < sumDelivered chunks →
    ∀ d : Nat, d + sumDelivered chunks ∈ cumBytes d chunks := by
  induction chunks with
  | nil =>
    intro _ hpos
    simp [sumDelivered] at hpos
  | cons c rest ih =>
    intro hnf hpos d
    cases c with
    | fault m => simp [hasFault, firstFaultMsg] at hnf
    | bytes n =>
      have hnf2 : hasFault rest = false := by
        simpa [hasFault, firstFaultMsg] using hnf
      by_cases hn : 0 < n
      · by_cases hrest : 0 < sumDelivered rest
        · have hmem := ih hnf2 hrest (d + n)
          have harith : d + sumDelivered (ChunkItem.bytes n :: rest) =
              (d + n) + sumDelivered rest := by
            simp [sumDelivered]
            omega
          rw [harith]
          simp only [cumBytes, hn, if_pos]
          exact List.mem_cons_of_mem _ hmem
        · have h0 : sumDelivered rest = 0 := by omega
          have harith : d + sumDelivered (ChunkItem.bytes n :: rest) = d + n := by
            simp [sumDelivered, h0]
          rw [harith]
          simp [cumBytes, hn]
      · have h0 : n = 0 := by omega
        subst h0
        have hrest : 0 < sumDelivered rest := by
          simpa [sumDelivered] using hpos
        have hmem := ih hnf2 hrest d
        have harith : d + sumDelivered (ChunkItem.bytes 0 :: rest) =
            d + sumDelivered rest := by
          simp [sumDelivered]
        rw [harith]
        simpa [cumBytes] using hmem

/-- Whatever the response, the progress percentages the downloader emits
form a non-decreasing sequence. -/
theorem run_progress_chain (vt fp : String) (r : HttpResponse) :
    List.Chain' (fun a b : Nat => a ≤ b)
      (progressValues (GameDownloader.run vt fp r).events) := by
  by_cases hok : r.ok
  · have hchain : List.Chain' (fun a b : Nat => a ≤ b)
        (progressValues (downloadLoop (r.contentLength.getD 0) r.chunks 0).1) := by
      by_cases ht : 0 < r.contentLength.getD 0
      · rw [downloadLoop_events_pos _ ht r.chunks 0, progressValues_map_progress]
        refine (List.chain'_map _).mpr ?_
        exact ((cumBytes_le r.chunks 0).1).imp
          (fun a b hab => Nat.div_le_div_right (Nat.mul_le_mul_right 100 hab))
      · have h0 : r.contentLength.getD 0 = 0 := by omega
        rw [h0, downloadLoop_events_zero r.chunks 0]
        exact List.chain'_nil
    cases hbr : (downloadLoop (r.contentLength.getD 0) r.chunks 0).2.2 with
    | some msg =>
      simp only [GameDownloader.run, hok, if_pos, hbr]
      rw [progressValues_append]
      simpa [progressValues] using hchain
    | none =>
      simp only [GameDownloader.run, hok, if_pos, hbr]
      rw [progressValues_append]
      simpa [progressValues] using hchain
  · simp only [Bool.not_eq_true] at hok
    simp [GameDownloader.run, hok, progressValues]

/-! ## Download manager claims -/

/-- C3: on any transport or filesystem fault — the request raising or a
non-2xx status before the body, or a mid-stream fault — the job emits the
error signal exactly once with the underlying exception text, never emits
finished, and the destination file keeps whatever bytes were written before
the fault (no branch removes it). -/
theorem claim_C3 (vt fp : String) (r : HttpResponse)
    (hfault : r.ok = false ∨ hasFault r.chunks = true) :
    countErrors (GameDownloader.run vt fp r).events = 1 ∧
    countFinished (GameDownloader.run vt fp r).events = 0 ∧
    errorMsgs (GameDownloader.run vt fp r).events = [underlyingMsg r] ∧
    (r.ok = true →
      (GameDownloader.run vt fp r).fileBytes = some (sumDelivered r.chunks)) := by
  by_cases hok : r.ok
  · have hf : hasFault r.chunks = true := by
      rcases hfault with h | h
      · rw [hok] at h
        exact absurd h (by simp)
      · exact h
    obtain ⟨msg, hmsg⟩ : ∃ m, firstFaultMsg r.chunks = some m := by
      cases hval : firstFaultMsg r.chunks with
      | none =>
        rw [hasFault, hval] at hf
        simp at hf
      | some m => exact ⟨m, rfl⟩
    have herr := downloadLoop_err (r.contentLength.getD 0) r.chunks 0
    rw [hmsg] at herr
    have hnoterm := downloadLoop_no_terminal (r.contentLength.getD 0) r.chunks 0
    have hbytes := downloadLoop_bytes (r.contentLength.getD 0) r.chunks 0
    refine ⟨?_, ?_, ?_, ?_⟩
    · simp only [GameDownloader.run, hok, ite_true, herr]
      rw [countErrors, errorMsgs_append, hnoterm.1]
      simp [errorMsgs]
    · simp only [GameDownloader.run, hok, ite_true, herr]
      rw [countFinished_append, hnoterm.2]
      simp [countFinished]
    · simp only [GameDownloader.run, hok, ite_true, herr]
      rw [errorMsgs_append, hnoterm.1]
      simp [errorMsgs, underlyingMsg, hok, hmsg]
    · intro _
      simp only [GameDownloader.run, hok, ite_true, herr]
      rw [hbytes, Nat.zero_add]
  · simp only [Bool.not_eq_true] at hok
    refine ⟨?_, ?_, ?_, ?_⟩
    · simp [GameDownloader.run, hok, countErrors, errorMsgs]
    · simp [GameDownloader.run, hok, countFinished]
    · simp [GameDownloader.run, hok, errorMsgs, underlyingMsg]
    · intro h
      rw [hok] at h
      exact absurd h (by simp)

/-- Witness for C3: a 404 response yields one error and no finished event;
a broken mid-transfer job yields one error with the exception text, no
finished event, and keeps its 250 partial bytes. -/
theorem claim_C3_witness :
    countErrors (GameDownloader.run "v1" "bin/game" resp404).events = 1 ∧
    countFinished (GameDownloader.run "v1" "bin/game" resp404).events = 0 ∧
    countErrors (GameDownloader.run "v1" "bin/game" respBroken).events = 1 ∧
    countFinished (GameDownloader.run "v1" "bin/game" respBroken).events = 0 ∧
    errorMsgs (GameDownloader.run "v1" "bin/game" respBroken).events =
      [underlyingMsg respBroken] ∧
    (GameDownloader.run "v1" "bin/game" respBroken).fileBytes =
      some (sumDelivered respBroken.chunks) := by
  have h404 := claim_C3 "v1" "bin/game" resp404 (Or.inl (by decide))
  have hbrk := claim_C3 "v1" "bin/game" respBroken (Or.inr (by decide))
  exact ⟨h404.1, h404.2.1, hbrk.1, hbrk.2.1, hbrk.2.2.1, hbrk.2.2.2 (by decide)⟩

/-- C4: with a known positive content length, the emitted progress
percentages are non-decreasing; and when the stream is fault-free and
delivers exactly the announced bytes, progress 100 is emitted strictly
before the single final finished event. -/
theorem claim_C4 (vt fp : String) (r : HttpResponse) (N : Nat)
    (hok : r.ok = true) (hcl : r.contentLength = some N) (hN : 0 < N) :
    List.Chain' (fun a b : Nat => a ≤ b)
      (progressValues (GameDownloader.run vt fp r).events) ∧
    (hasFault r.chunks = false → sumDelivered r.chunks = N →
      DlEvent.progress 100 ∈ (GameDownloader.run vt fp r).events.dropLast ∧
      (GameDownloader.run vt fp r).events.getLast? =
        some (DlEvent.finished ("Skakavi Krompir " ++ vt) fp)) := by
  refine ⟨run_progress_chain vt fp r, ?_⟩
  intro hnf hsum
  have hmsg : firstFaultMsg r.chunks = none := by
    rw [hasFault] at hnf
    exact Option.not_isSome_iff_eq_none.mp (by simp [hnf])
  have herr := downloadLoop_err (r.contentLength.getD 0) r.chunks 0
  rw [hmsg] at herr
  have htot : r.contentLength.getD 0 = N := by rw [hcl]; rfl
  have hev := downloadLoop_events_pos (r.contentLength.getD 0)
    (by rw [htot]; exact hN) r.chunks 0
  have hpos : 0 < sumDelivered r.chunks := by rw [hsum]; exact hN
  have hmem0 := sumDelivered_mem_cumBytes r.chunks hnf hpos 0
  rw [Nat.zero_add, hsum] at hmem0
  have hprog : DlEvent.progress 100 ∈
      (downloadLoop (r.contentLength.getD 0) r.chunks 0).1 := by
    rw [hev]
    have h100 : N * 100 / r.contentLength.getD 0 = 100 := by
      rw [htot]
      exact Nat.mul_div_cancel_left 100 hN
    have hm : DlEvent.progress (N * 100 / r.contentLength.getD 0) ∈
        List.map (fun b => DlEvent.progress (b * 100 / r.contentLength.getD 0))
          (cumBytes 0 r.chunks) :=
      List.mem_map_of_mem _ hmem0
    rw [h100] at hm
    exact hm
  constructor
  · simp only [GameDownloader.run, hok, ite_true, herr]
    rw [List.dropLast_concat]
    exact hprog
  · simp only [GameDownloader.run, hok, ite_true, herr]
    rw [List.getLast?_concat]

/-- Witness for C4: the 1000-byte download in 250-byte chunks produces a
non-decreasing progress sequence, emits 100, and ends with finished. -/
theorem claim_C4_witness :
    List.Chain' (fun a b : Nat => a ≤ b)
      (progressValues (GameDownloader.run "v1" "bin/game" resp1000).events) ∧
    DlEvent.progress 100 ∈
      (GameDownloader.run "v1" "bin/game" resp1000).events.dropLast ∧
    (GameDownloader.run "v1" "bin/game" resp1000).events.getLast? =
      some (DlEvent.finished ("Skakavi Krompir " ++ "v1") "bin/game") := by
  have h := claim_C4 "v1" "bin/game" resp1000 1000 rfl rfl (by decide)
  have h2 := h.2 (by decide) (by decide)
  exact ⟨h.1, h2.1, h2.2⟩

/-- C5: with a supplied positive content length every progress event carries
floor(bytes_received * 100 / content_length), one event per delivering
chunk; with the header absent no progress event at all is emitted, while the
job still reports finished on success and the error on a fault. -/
theorem claim_C5 (vt fp : String) (r : HttpResponse) (hok : r.ok = true) :
    (∀ N : Nat, r.contentLength = some N → 0 < N →
      progressValues (GameDownloader.run vt fp r).events =
        (cumBytes 0 r.chunks).map (fun b => b * 100 / N)) ∧
    (r.contentLength = none →
      progressValues (GameDownloader.run vt fp r).events = [] ∧
      (hasFault r.chunks = false →
        (GameDownloader.run vt fp r).events =
          [DlEvent.finished ("Skakavi Krompir " ++ vt) fp]) ∧
      (∀ msg, firstFaultMsg r.chunks = some msg →
        (GameDownloader.run vt fp r).events = [DlEvent.error msg])) := by
  constructor
  · intro N hcl hN
    have htot : r.contentLength.getD 0 = N := by rw [hcl]; rfl
    have hev := downloadLoop_events_pos (r.contentLength.getD 0)
      (by rw [htot]; exact hN) r.chunks 0
    cases hbr : (downloadLoop (r.contentLength.getD 0) r.chunks 0).2.2 with
    | some msg =>
      simp only [GameDownloader.run, hok, ite_true, hbr]
      rw [progressValues_append, hev, progressValues_map_progress, htot]
      simp [progressValues]
    | none =>
      simp only [GameDownloader.run, hok, ite_true, hbr]
      rw [progressValues_append, hev, progressValues_map_progress, htot]
      simp [progressValues]
  · intro hnone
    have htot : r.contentLength.getD 0 = 0 := by rw [hnone]; rfl
    have hz := downloadLoop_events_zero r.chunks 0
    refine ⟨?_, ?_, ?_⟩
    · cases hbr : (downloadLoop (r.contentLength.getD 0) r.chunks 0).2.2 with
      | some msg =>
        simp only [GameDownloader.run, hok, ite_true, hbr]
        rw [progressValues_append, htot, hz]
        simp [progressValues]
      | none =>
        simp only [GameDownloader.run, hok, ite_true, hbr]
        rw [progressValues_append, htot, hz]
        simp [progressValues]
    · intro hnf
      have hmsg : firstFaultMsg r.chunks = none := by
        rw [hasFault] at hnf
        exact Option.not_isSome_iff_eq_none.mp (by simp [hnf])
      have herr := downloadLoop_err (r.contentLength.getD 0) r.chunks 0
      rw [hmsg] at herr
      simp only [GameDownloader.run, hok, ite_true, herr]
      rw [htot, hz]
      rfl
    · intro msg hmsg
      have herr := downloadLoop_err (r.contentLength.getD 0) r.chunks 0
      rw [hmsg] at herr
      simp only [GameDownloader.run, hok, ite_true, herr]
      rw [htot, hz]
      rfl

/-- Witness for C5: the 1000-byte download reports exactly the floor
formula values, and the job without a content-length header emits no
progress and exactly one finished event. -/
theorem claim_C5_witness :
    progressValues (GameDownloader.run "v1" "bin/game" resp1000).events =
      (cumBytes 0 resp1000.chunks).map (fun b => b * 100 / 1000) ∧
    progressValues (GameDownloader.run "v1" "bin/game" respNoLength).events = [] ∧
    (GameDownloader.run "v1" "bin/game" respNoLength).events =
      [DlEvent.finished ("Skakavi Krompir " ++ "v1") "bin/game"] := by
  have h1 := (claim_C5 "v1" "bin/game" resp1000 rfl).1 1000 rfl (by decide)
  have h2 := (claim_C5 "v1" "bin/game" respNoLength rfl).2 rfl
  exact ⟨h1, h2.1, h2.2.1 (by decide)⟩

/-! ## Process supervisor claims -/

/-- Counterexample to C1 as stated: with a prior handle in `Running`, the
rejected Launch does end up reporting "Already running", but it is not a
complete no-op — the log sink permanently gains one more launch banner
line, so an action beyond the report is performed. -/
theorem claim_C1_counterexample :
    (launch_instance (fun _ => true) runningState inst0).1.status =
      "Already running" ∧
    (launch_instance (fun _ => true) runningState inst0).1.log ≠
      runningState.log := by
  refine ⟨rfl, ?_⟩
  decide

/-- C1 amended: with a prior handle in `Running`, Launch reports
"Already running", keeps the same handle (creates no new one), performs no
OS action (no directory creation, no process start) — but, before the state
check, it appends the launch banner to the log sink, which is the only
other state change of the rejected call. -/
theorem claim_C1_amended (fsExists : String → Bool) (s : LauncherState)
    (inst : Instance) (p : ProcHandle) (hp : s.process = some p)
    (hrun : p.state = ProcessState.Running) :
    launch_instance fsExists s inst =
      ({ s with
          status := "Already running"
          log := s.log ++ [bannerLine inst] }, []) := by
  cases s with
  | mk proc st lg =>
    subst hp
    simp [launch_instance, hrun]

/-- Witness for the amended C1 at a concrete running state. -/
theorem claim_C1_witness :
    launch_instance (fun _ => true) runningState inst0 =
      ({ runningState with
          status := "Already running"
          log := runningState.log ++ [bannerLine inst0] }, []) :=
  claim_C1_amended (fun _ => true) runningState inst0
    { state := ProcessState.Running, pid := 42, workingDirectory := "/opt/game/bin" }
    rfl rfl

/-- C2: with no handle in `Running`, Kill only reports "Not running" and
performs no OS call; with a running handle it signals the whole process
group when the group resolves and the group signal works, falls back to
terminating only the leader when the group cannot be resolved or the group
signal raises, waits at most 1000 ms for exit confirmation, and in every
such case clears the handle and reports "Killed". -/
theorem claim_C2 (getpgid : Nat → Option Nat) (killpgFaults : Bool)
    (s : LauncherState) :
    ((∀ p, s.process = some p → p.state ≠ ProcessState.Running) →
      kill_instance getpgid killpgFaults s =
        ({ s with status := "Not running" }, [])) ∧
    (∀ p, s.process = some p → p.state = ProcessState.Running →
      (kill_instance getpgid killpgFaults s).1 =
        { s with process := none, status := "Killed" } ∧
      (∀ pg, getpgid p.pid = some pg → killpgFaults = false →
        (kill_instance getpgid killpgFaults s).2 =
          [OsAction.killpg pg, OsAction.waitForFinished 1000]) ∧
      (∀ pg, getpgid p.pid = some pg → killpgFaults = true →
        (kill_instance getpgid killpgFaults s).2 =
          [OsAction.killpg pg, OsAction.killLeader p.pid,
            OsAction.waitForFinished 1000]) ∧
      (getpgid p.pid = none →
        (kill_instance getpgid killpgFaults s).2 =
          [OsAction.killLeader p.pid, OsAction.waitForFinished 1000])) := by
  constructor
  · intro h
    cases hp : s.process with
    | none => simp [kill_instance, hp]
    | some p =>
      have hne := h p hp
      simp [kill_instance, hp, hne]
  · intro p hp hrun
    refine ⟨?_, ?_, ?_, ?_⟩
    · cases hg : getpgid p.pid with
      | none => simp [kill_instance, hp, hrun, hg]
      | some pg => cases killpgFaults <;> simp [kill_instance, hp, hrun, hg]
    · intro pg hg hkf
      subst hkf
      simp [kill_instance, hp, hrun, hg]
    · intro pg hg hkf
      subst hkf
      simp [kill_instance, hp, hrun, hg]
    · intro hg
      simp [kill_instance, hp, hrun, hg]

/-- Witness for C2: on the startup state Kill reports "Not running" with no
OS call; on a running handle with resolvable group it signals the group,
waits 1000 ms, clears the handle and reports "Killed". -/
theorem claim_C2_witness :
    kill_instance (fun _ => some 42) false initialLauncherState =
      ({ initialLauncherState with status := "Not running" }, []) ∧
    (kill_instance (fun _ => some 42) false runningState).1 =
      { runningState with process := none, status := "Killed" } ∧
    (kill_instance (fun _ => some 42) false runningState).2 =
      [OsAction.killpg 42, OsAction.waitForFinished 1000] := by
  have h1 := (claim_C2 (fun _ => some 42) false initialLauncherState).1
    (by intro p hp; simp [initialLauncherState] at hp)
  have h2 := (claim_C2 (fun _ => some 42) false runningState).2
    { state := ProcessState.Running, pid := 42, workingDirectory := "/opt/game/bin" }
    rfl rfl
  exact ⟨h1, h2.1, h2.2.1 42 rfl rfl⟩

/-- Counterexample to C8 as stated: launching an instance whose executable
is missing does not put the supervisor into a Failed state with a failure
reason at all — under the setsid indirection the start succeeds, the run
ends reported as "Finished (Exit Code: 127)", and the process handle does
not remain unset. -/
theorem claim_C8_counterexample :
    (launch_exec_failure (fun _ => true) initialLauncherState inst0
        StartFailureCause.executableNotFound).status =
      "Finished (Exit Code: 127)" ∧
    (launch_exec_failure (fun _ => true) initialLauncherState inst0
        StartFailureCause.executableNotFound).process ≠ none := by
  refine ⟨rfl, ?_⟩
  decide

/-- C8 amended: because Launch runs `setsid` with the instance path as an
argument, a missing or permission-denied instance executable does not make
the start fail: `setsid` starts, the status transiently shows Running, and
the run ends reported through `handle_finished` as
"Finished (Exit Code: 127)" for a missing executable and
"Finished (Exit Code: 126)" for a permission-denied one — distinguishable
through the exit code, but never as a Failed-state failure reason; the
handle object remains set, in state `NotRunning`, so a subsequent Launch is
allowed and attempts a new start. -/
theorem claim_C8_amended (fsExists : String → Bool) (s : LauncherState)
    (inst : Instance) (hidle : s.process = none) :
    (launch_exec_failure fsExists s inst
        StartFailureCause.executableNotFound).status =
      "Finished (Exit Code: 127)" ∧
    (launch_exec_failure fsExists s inst
        StartFailureCause.permissionDenied).status =
      "Finished (Exit Code: 126)" ∧
    (launch_exec_failure fsExists s inst
        StartFailureCause.executableNotFound).status ≠
      (launch_exec_failure fsExists s inst
        StartFailureCause.permissionDenied).status ∧
    (∃ p, (launch_exec_failure fsExists s inst
        StartFailureCause.executableNotFound).process = some p ∧
      p.state = ProcessState.NotRunning) ∧
    OsAction.startProcess "setsid" [inst.path] (dirname inst.path) ∈
      (launch_instance fsExists
        (launch_exec_failure fsExists s inst
          StartFailureCause.executableNotFound) inst).2 := by
  cases s with
  | mk proc st lg =>
    subst hidle
    have h127 : (launch_exec_failure fsExists
        { process := none, status := st, log := lg } inst
        StartFailureCause.executableNotFound).status =
        "Finished (Exit Code: 127)" := rfl
    have h126 : (launch_exec_failure fsExists
        { process := none, status := st, log := lg } inst
        StartFailureCause.permissionDenied).status =
        "Finished (Exit Code: 126)" := rfl
    refine ⟨h127, h126, ?_, ?_, ?_⟩
    · rw [h127, h126]
      decide
    · exact ⟨{ state := ProcessState.NotRunning, pid := 0, workingDirectory := dirname inst.path }, rfl, rfl⟩
    · simp only [launch_exec_failure, launch_instance, handle_finished,
        setsidExitCode]
      simp

/-- Witness for the amended C8: from the startup state, a missing and a
permission-denied instance executable end in the two distinct exit-code
statuses, and the following Launch attempts a start. -/
theorem claim_C8_witness :
    (launch_exec_failure (fun _ => true) initialLauncherState inst0
        StartFailureCause.executableNotFound).status =
      "Finished (Exit Code: 127)" ∧
    (launch_exec_failure (fun _ => true) initialLauncherState inst0
        StartFailureCause.permissionDenied).status =
      "Finished (Exit Code: 126)" ∧
    OsAction.startProcess "setsid" [inst0.path] (dirname inst0.path) ∈
      (launch_instance (fun _ => true)
        (launch_exec_failure (fun _ => true) initialLauncherState inst0
          StartFailureCause.executableNotFound) inst0).2 := by
  have h := claim_C8_amended (fun _ => true) initialLauncherState inst0 rfl
  exact ⟨h.1, h.2.1, h.2.2.2.2⟩
